import Mathlib

/-!
# Verification of the Nightscout pebble page builder's inference & formatting core

This file gives a shallow embedding of the decision logic of the repository's
build scripts — unit derivation, timezone resolution, value/delta formatting,
trend-symbol mapping, reading-age computation, and the fallback-writer control
flow — and proves/refutes the frozen behavioural claims about them.

Numbers are modelled as exact rationals (`ℚ`): every value the JSON feeds
produce is a finite decimal, and the scripts' arithmetic (division by the
mg/dL↔mmol/L constant, rounding, fixed-point rendering) is modelled exactly.
"Not a finite number" (NaN / ±Infinity) is modelled as `Option.none` at the
points where the scripts guard with `Number.isFinite`.
-/

/-- A JavaScript value as it reaches the formatting functions: a missing field
(`undefined`/`null`), a string, or a finite number. JSON payloads cannot carry
NaN/Infinity, so finite numbers suffice for the `num` case. -/
inductive JSVal where
  | undef
  | str (s : String)
  | num (q : ℚ)
deriving DecidableEq

/-- The whitespace characters recognised by the model of JS `\s` /
`StrWhiteSpace` (the ASCII subset; the feeds never carry exotic Unicode
spaces). -/
def isJsSpace (c : Char) : Bool := c = ' ' || c = '\t' || c = '\n' || c = '\r'

/-- Value of a list of decimal digit characters, most significant first. -/
def digitsToNat (ds : List Char) : ℕ :=
  ds.foldl (fun a c => a * 10 + (c.toNat - 48)) 0

/-- Value of a fractional digit block: `fracVal ['2','5'] = 25/100`. -/
def fracVal (fs : List Char) : ℚ :=
  (digitsToNat fs : ℚ) / 10 ^ fs.length

/-- Integer power of ten over `ℚ` (for exponent parts of numeric literals). -/
def zpow10 (z : ℤ) : ℚ := (10 : ℚ) ^ z

/-- Consume an optional exponent part (`e`/`E`, optional sign, digits) after a
parsed mantissa `v`; when the exponent digits are missing the characters are
left unconsumed, as both `parseFloat` and `Number` demand. -/
def expPart (v : ℚ) (cs : List Char) : ℚ × List Char :=
  match cs with
  | 'e' :: r | 'E' :: r =>
    let (esgn, r2) : ℤ × List Char :=
      match r with
      | '+' :: t => (1, t)
      | '-' :: t => (-1, t)
      | t => (1, t)
    let ds := r2.takeWhile Char.isDigit
    if ds = [] then (v, cs)
    else (v * zpow10 (esgn * (digitsToNat ds : ℤ)), r2.dropWhile Char.isDigit)
  | _ => (v, cs)

/-- Longest unsigned decimal-literal prefix (`digits [. digits?] [exp]` or
`. digits [exp]`), returning its value and the unconsumed rest; `none` when no
literal starts the list. Shared by the models of `parseFloat` and `Number`. -/
def parseDecPrefix (cs : List Char) : Option (ℚ × List Char) :=
  let ds := cs.takeWhile Char.isDigit
  let r1 := cs.dropWhile Char.isDigit
  if ds = [] then
    match r1 with
    | '.' :: r2 =>
      let fs := r2.takeWhile Char.isDigit
      if fs = [] then none
      else some (expPart (fracVal fs) (r2.dropWhile Char.isDigit))
    | _ => none
  else
    match r1 with
    | '.' :: r2 =>
      let fs := r2.takeWhile Char.isDigit
      some (expPart ((digitsToNat ds : ℚ) + fracVal fs) (r2.dropWhile Char.isDigit))
    | _ => some (expPart (digitsToNat ds) r1)

/-- Model of JS `String.prototype.trim` (ASCII whitespace subset). -/
def jsTrim (s : String) : String :=
  ⟨((s.data.dropWhile isJsSpace).reverse.dropWhile isJsSpace).reverse⟩

/-- Model of JS `parseFloat` restricted to finite results: leading whitespace,
optional sign, then the longest decimal-literal prefix; `Infinity` (a
non-finite result) and a missing literal both give `none` (= NaN / non-finite,
which the scripts' `Number.isFinite` guards reject alike). -/
def parseFloatQ (s : String) : Option ℚ :=
  let cs := s.data.dropWhile isJsSpace
  let (sgn, cs2) : ℚ × List Char :=
    match cs with
    | '+' :: r => (1, r)
    | '-' :: r => (-1, r)
    | r => (1, r)
  if cs2.take 8 = "Infinity".data then none
  else
    match parseDecPrefix cs2 with
    | some (v, _) => some (sgn * v)
    | none => none

/-- Fuel-driven decimal digit expansion of a natural number (most significant
digit first); the fuel `n+1` always suffices. -/
def natDigitsAux : ℕ → ℕ → List Char → List Char
  | 0, _, acc => acc
  | fuel+1, n, acc =>
    let d := Char.ofNat (48 + n % 10)
    if n < 10 then d :: acc
    else natDigitsAux fuel (n / 10) (d :: acc)

/-- Decimal digit string of a natural number, e.g. `natReprL 120 = "120".data`. -/
def natReprL (n : ℕ) : List Char := natDigitsAux (n + 1) n []

/-- Model of JS integer-to-string (`String(Math.round(...))` and template
interpolation of an integer). -/
def jsIntString (z : ℤ) : String :=
  ⟨if z < 0 then '-' :: natReprL z.natAbs else natReprL z.natAbs⟩

/-- Model of JS `Math.round`: round half towards positive infinity. -/
def jsRound (q : ℚ) : ℤ := ⌊q + 1 / 2⌋

/-- Model of JS `Number.prototype.toFixed(1)`: for negative input, a minus sign
followed by the rendering of the magnitude; the magnitude is rounded to the
nearest tenth (ties up) and printed as integer part, a dot, and exactly one
digit. -/
def jsToFixed1 (q : ℚ) : String :=
  let x : ℚ := if q < 0 then -q else q
  let n : ℕ := (⌊x * 10 + 1 / 2⌋).toNat
  ⟨(if q < 0 then ['-'] else []) ++ natReprL (n / 10) ++ ['.', Char.ofNat (48 + n % 10)]⟩

theorem digitChar_isDigit {k : ℕ} (hk : k < 10) : (Char.ofNat (48 + k)).isDigit = true := by
  interval_cases k <;> decide

theorem natDigitsAux_digits :
    ∀ (fuel n : ℕ) (acc : List Char), (∀ c ∈ acc, c.isDigit = true) →
      ∀ c ∈ natDigitsAux fuel n acc, c.isDigit = true := by
  intro fuel
  induction fuel with
  | zero => intro n acc hacc c hc; exact hacc c hc
  | succ f ih =>
    intro n acc hacc c hc
    have hd : (Char.ofNat (48 + n % 10)).isDigit = true :=
      digitChar_isDigit (Nat.mod_lt _ (by norm_num))
    simp only [natDigitsAux] at hc
    split at hc
    · rcases List.mem_cons.mp hc with h | h
      · exact h ▸ hd
      · exact hacc c h
    · refine ih (n / 10) _ ?_ c hc
      intro c' hc'
      rcases List.mem_cons.mp hc' with h | h
      · exact h ▸ hd
      · exact hacc c' h

theorem natReprL_digits (n : ℕ) : ∀ c ∈ natReprL n, c.isDigit = true :=
  natDigitsAux_digits _ _ _ (by simp)

theorem natReprL_no_dot (n : ℕ) : '.' ∉ natReprL n := by
  intro h
  have := natReprL_digits n _ h
  simp [Char.isDigit] at this

theorem jsIntString_no_dot (z : ℤ) : '.' ∉ (jsIntString z).data := by
  unfold jsIntString
  split
  · intro h
    rcases List.mem_cons.mp h with h | h
    · exact absurd h (by decide)
    · exact natReprL_no_dot _ h
  · exact natReprL_no_dot _

/-- "Exactly one digit after the decimal point": the character list is a
dot-free prefix, a dot, and a single final digit. -/
def hasOneFracDigit (s : String) : Prop :=
  ∃ (a : List Char) (d : Char), s.data = a ++ ['.', d] ∧ d.isDigit = true ∧ '.' ∉ a

theorem jsToFixed1_oneFracDigit (q : ℚ) : hasOneFracDigit (jsToFixed1 q) := by
  unfold jsToFixed1 hasOneFracDigit
  refine ⟨(if q < 0 then ['-'] else []) ++ natReprL ((⌊(if q < 0 then -q else q) * 10 + 1 / 2⌋).toNat / 10),
    Char.ofNat (48 + (⌊(if q < 0 then -q else q) * 10 + 1 / 2⌋).toNat % 10), ?_, ?_, ?_⟩
  · simp
  · exact digitChar_isDigit (Nat.mod_lt _ (by norm_num))
  · intro h
    rcases List.mem_append.mp h with h | h
    · split at h
      · exact absurd (List.mem_singleton.mp h) (by decide)
      · simp at h
    · exact natReprL_no_dot _ h

/-- Strict numeric-literal reading of a whole (already trimmed, non-empty)
character list: optional sign, then a decimal literal consuming everything.
`Infinity` is non-finite, hence `none`; non-decimal radix literals (hex etc.)
are not modelled, as no upstream JSON field carries them. -/
def strictNumericLit (cs : List Char) : Option ℚ :=
  let (sgn, cs2) : ℚ × List Char :=
    match cs with
    | '+' :: r => (1, r)
    | '-' :: r => (-1, r)
    | r => (1, r)
  if cs2 = "Infinity".data then none
  else
    match parseDecPrefix cs2 with
    | some (v, []) => some (sgn * v)
    | _ => none

/-- Model of JS `Number(x)` restricted to finite results (`none` = NaN or
±Infinity, which the scripts treat alike via `Number.isFinite`): `undefined`
gives NaN; a string is trimmed, the empty string gives 0, and otherwise the
whole string must be a signed decimal literal. -/
def jsNumber (x : JSVal) : Option ℚ :=
  match x with
  | .undef => none
  | .num q => some q
  | .str s =>
    let cs := (jsTrim s).data
    if cs = [] then some 0 else strictNumericLit cs

/-- Fractional decimal digits of `x ∈ [0,1)`, one per fuel step (20 steps — far
beyond what any finite JS number prints). -/
def fracCharsAux : ℕ → ℚ → List Char
  | 0, _ => []
  | k+1, x =>
    if x = 0 then []
    else
      let y := x * 10
      Char.ofNat (48 + (⌊y⌋).toNat % 10) :: fracCharsAux k (y - ⌊y⌋)

/-- Model of JS number-to-string for the finite-decimal values the feeds
produce: sign, integer part, and the fractional digits when non-zero. -/
def decimalRepr (q : ℚ) : String :=
  let x : ℚ := if q < 0 then -q else q
  let f := fracCharsAux 20 (x - ⌊x⌋)
  ⟨(if q < 0 then ['-'] else []) ++ natReprL (⌊x⌋).toNat ++ (if f = [] then [] else '.' :: f)⟩

/-- Model of JS `String(x)` on the values reaching the formatters. -/
def jsStringOf (x : JSVal) : String :=
  match x with
  | .undef => "undefined"
  | .str s => s
  | .num q => decimalRepr q

/-- `toNumber` from the build script:
`if (x == null) return NaN; const s = String(x).replace(",", "."); const n =
parseFloat(s); return Number.isFinite(n) ? n : NaN;` — `replace` with a string
pattern replaces only the first comma. `none` models NaN. -/
def replaceFirstComma : List Char → List Char
  | [] => []
  | c :: rest => if c = ',' then '.' :: rest else c :: replaceFirstComma rest

def toNumber (x : JSVal) : Option ℚ :=
  match x with
  | .undef => none
  | .num q => some q
  | .str s => parseFloatQ ⟨replaceFirstComma s.data⟩

/-- `looksLikeMmol` from the build script:
`Number.isFinite(n) && n > 0 && n <= 40`. -/
def looksLikeMmol (n : Option ℚ) : Bool :=
  match n with
  | some q => decide (0 < q) && decide (q ≤ 40)
  | none => false

/-- The fixed conversion constant `MGDL_PER_MMOLL = 18.0182`. -/
def MGDL_PER_MMOLL : ℚ := 180182 / 10000

/-- The status payload fields the scripts consult (`settings.units`,
`settings.units_bg`, top-level `units`, `settings.timezone`); `none` = the
field is absent. Non-string junk in these fields is not modelled: the scripts
would stringify it, and no claim concerns that case. -/
structure StatusSnap where
  settingsUnits : Option String
  settingsUnitsBg : Option String
  topUnits : Option String
  settingsTimezone : Option String
deriving DecidableEq

/-- The `??`-chain `status?.settings?.units ?? status?.settings?.units_bg ??
status?.units ?? null` (an empty string is NOT nullish, so it stops the
chain). -/
def rawUnits (st : Option StatusSnap) : Option String :=
  match st with
  | none => none
  | some s => (s.settingsUnits <|> s.settingsUnitsBg) <|> s.topUnits

/-- Substring test (`String.prototype.includes`). -/
def listInfix (pat : List Char) : List Char → Bool
  | [] => decide (pat = [])
  | c :: t => pat.isPrefixOf (c :: t) || listInfix pat t

def strContains (s pat : String) : Bool := listInfix pat.data s.data

/-- ASCII lower-casing (`String.prototype.toLowerCase` on the ASCII unit
strings the feeds carry). -/
def lowerStr (s : String) : String := ⟨s.data.map Char.toLower⟩

/-- `deriveUnits(status, sgvRaw)` from the feature-complete build script:
FORCE_MMOL flag, then the NIGHTSCOUT_UNITS override ("mmol" / "mgdl", already
trimmed and lower-cased by the environment processing), then a truthy declared
unit string from the status payload, then magnitude inference from the raw
reading. `fm` is the FORCE_MMOL flag and `ns` the NIGHTSCOUT_UNITS value. -/
def deriveUnits (fm : Bool) (ns : Option String) (st : Option StatusSnap) (sgvRaw : JSVal) :
    String :=
  if fm then "mmol/L"
  else if ns = some "mmol" then "mmol/L"
  else if ns = some "mgdl" then "mg/dL"
  else
    match rawUnits st with
    | some v =>
      if v ≠ "" then (if strContains (lowerStr v) "mmol" then "mmol/L" else "mg/dL")
      else if looksLikeMmol (toNumber sgvRaw) then "mmol/L" else "mg/dL"
    | none => if looksLikeMmol (toNumber sgvRaw) then "mmol/L" else "mg/dL"

/-- `resolveTimezone(status)` from the build script. `rawTz` is the
NIGHTSCOUT_TZ environment value (`none` = unset), `localTZ` the runner's
`Intl` zone (`""` models a nullish resolution, folded to "UTC" by the
script's `|| "UTC"`), and `knownZone` the membership test of the moment
timezone database. A truthy trimmed override or status timezone is returned
as-is (the database check there only drives a debug log); only the local zone
is actually gated on the database. The resolver is split into the three
candidate computations of the source, then the priority chain.
`overrideTz` is `RAW_TZ?.trim()` with a nullish result folded to the
falsy `""`. -/
def overrideTz (rawTz : Option String) : String := (rawTz.map jsTrim).getD ""

/-- `status?.settings?.timezone?.trim()`, with a nullish result folded to the
falsy `""`. -/
def statusTz (st : Option StatusSnap) : String :=
  ((st.bind StatusSnap.settingsTimezone).map jsTrim).getD ""

/-- `Intl.DateTimeFormat().resolvedOptions().timeZone || "UTC"`. -/
def localOrUTC (localTZ : String) : String := if localTZ = "" then "UTC" else localTZ

def resolveTimezone (rawTz : Option String) (st : Option StatusSnap) (localTZ : String)
    (knownZone : String → Bool) : String :=
  if overrideTz rawTz ≠ "" then overrideTz rawTz
  else if statusTz st ≠ "" then statusTz st
  else if knownZone (localOrUTC localTZ) then localOrUTC localTZ else "UTC"

/-- `formatBG(valueMgdl, units)` from the trust-the-resolved-unit build script:
non-finite input is echoed (`String(valueMgdl ?? "?")`); a finite value is
divided by `MGDL_PER_MMOLL` and shown with one fractional digit for mmol/L, or
rounded to an integer for mg/dL. -/
def formatBG (valueRaw : JSVal) (units : String) : String :=
  match jsNumber valueRaw with
  | some n =>
    if units = "mmol/L" then jsToFixed1 (n / MGDL_PER_MMOLL)
    else jsIntString (jsRound n)
  | none =>
    match valueRaw with
    | .undef => "?"
    | v => jsStringOf v

/-- The optional sign group of the delta regex (also reused for literal
signs elsewhere). -/
def splitSign : List Char → String × List Char
  | '+' :: r => ("+", r)
  | '-' :: r => ("-", r)
  | r => ("", r)

/-- The delta regex `^\s*([+-]?)(\d+(\.\d+)?)\s*$`: on a match, the sign group
(`""`, `"+"` or `"-"`) and the value of the unsigned digit group
(`Number(m[2])`, never negative). -/
def parseSignedDec (s : String) : Option (String × ℚ) :=
  let p := splitSign (s.data.dropWhile isJsSpace)
  let ds := p.2.takeWhile Char.isDigit
  let r1 := p.2.dropWhile Char.isDigit
  if ds = [] then none
  else
    match r1 with
    | '.' :: r2 =>
      let fs := r2.takeWhile Char.isDigit
      let r3 := r2.dropWhile Char.isDigit
      if fs = [] then none
      else if r3.all isJsSpace then some (p.1, (digitsToNat ds : ℚ) + fracVal fs) else none
    | r => if r.all isJsSpace then some (p.1, (digitsToNat ds : ℚ)) else none

/-- `formatDelta(deltaStrOrNum, units)` from the trust-the-resolved-unit build
script: nullish or empty gives `""`; a string form not matching the signed
decimal regex is echoed verbatim; otherwise the sign (explicit, or `"+"` for a
non-negative value) is prefixed to the converted magnitude. (The script's
`Number.isFinite(val)` re-check cannot fail for a digit-group value in the
exact-rational model, so it has no `else` branch here.) -/
def formatDelta (deltaRaw : JSVal) (units : String) : String :=
  if deltaRaw = JSVal.undef ∨ deltaRaw = JSVal.str "" then ""
  else
    let s := jsStringOf deltaRaw
    match parseSignedDec s with
    | none => s
    | some (sign, mag) =>
      if units = "mmol/L" then
        let si := if sign = "" then (if (0 : ℚ) ≤ mag then "+" else "") else sign
        si ++ jsToFixed1 (mag / MGDL_PER_MMOLL)
      else
        let si := if sign = "" then (if (0 : ℚ) ≤ mag then "+" else "") else sign
        si ++ jsIntString (jsRound mag)

/-- The trend field: absent/null, a number, or a string. -/
inductive Trend where
  | undef
  | num (n : ℤ)
  | str (s : String)
deriving DecidableEq

/-- The ASCII trend table `tmap` of the feature-complete build script, as a
keyed lookup (JS object property access stringifies a numeric key). -/
def tmap (k : String) : Option String :=
  if k = "1" then some "v"
  else if k = "2" then some "v>"
  else if k = "3" then some "--"
  else if k = "4" then some "^>"
  else if k = "5" then some "^"
  else if k = "DoubleDown" then some "vv"
  else if k = "SingleDown" then some "v"
  else if k = "FortyFiveDown" then some "v>"
  else if k = "Flat" then some "--"
  else if k = "FortyFiveUp" then some "^>"
  else if k = "SingleUp" then some "^"
  else if k = "DoubleUp" then some "^^"
  else none

/-- `tmap[trend] || (typeof trend === "string" ? trend : "")`. -/
def mapTrend (t : Trend) : String :=
  match t with
  | .undef => ""
  | .num n =>
    match tmap (jsIntString n) with
    | some a => a
    | none => ""
  | .str s =>
    match tmap s with
    | some a => a
    | none => s

/-- The reading-age computation of the feature-complete build script:
`toNumber(bg0.datetime ?? bg0.readingDate)`, then, when finite,
`Math.max(0, Math.round((Date.now() - ts) / 60000))` minutes. -/
def computeAge (tsRaw : JSVal) (nowMillis : ℚ) : String :=
  match toNumber tsRaw with
  | none => "?"
  | some ts => jsIntString (max 0 (jsRound ((nowMillis - ts) / 60000))) ++ "m ago"

/-- The diagnostic fallback document the catch branch writes:
`Build error: ${msg}\nSource: ${pebbleURL}\n`. -/
def fallbackPage (msg srcUrl : String) : String :=
  "<!doctype html><meta charset=\"utf-8\"><pre>Build error: " ++ msg ++
    "\nSource: " ++ srcUrl ++ "\n</pre>"

/-- What one run leaves behind: the file written (always to `index.html`) and
the process exit status. -/
structure RunResult where
  path : String
  file : String
  exitCode : ℕ
deriving DecidableEq

/-- The build script's top-level `try`/`catch`: a successful fetch pipeline
writes the rendered page; a raised error (network failure or non-ok HTTP
status from the mandatory reading fetch) is caught, the diagnostic page is
written to the same location, and `process.exitCode` is set to `0`. The
rendered page of the success path is abstracted as the `Except.ok` payload. -/
def runBuild (pebbleURL : String) (fetchResult : Except String String) : RunResult :=
  match fetchResult with
  | .ok page => ⟨"index.html", page, 0⟩
  | .error msg => ⟨"index.html", fallbackPage msg pebbleURL, 0⟩

/-! ## Helper lemmas about the regex model -/

theorem splitSign_fst (cs : List Char) :
    (splitSign cs).1 = "" ∨ (splitSign cs).1 = "+" ∨ (splitSign cs).1 = "-" := by
  rw [splitSign.eq_def]
  split <;> simp

theorem fracVal_nonneg (fs : List Char) : 0 ≤ fracVal fs := by
  unfold fracVal
  positivity

theorem digits_add_frac_nonneg (n : ℕ) (fs : List Char) : 0 ≤ (n : ℚ) + fracVal fs := by
  have h1 := fracVal_nonneg fs
  have h2 : (0 : ℚ) ≤ (n : ℚ) := Nat.cast_nonneg n
  linarith

theorem parseSignedDec_nonneg (s sg : String) (m : ℚ)
    (h : parseSignedDec s = some (sg, m)) : 0 ≤ m := by
  simp only [parseSignedDec] at h
  split at h
  · exact absurd h (by simp)
  · split at h
    · split at h
      · exact absurd h (by simp)
      · split at h
        · simp only [Option.some.injEq, Prod.mk.injEq] at h
          obtain ⟨-, hm⟩ := h
          subst hm
          exact digits_add_frac_nonneg _ _
        · exact absurd h (by simp)
    · split at h
      · simp only [Option.some.injEq, Prod.mk.injEq] at h
        obtain ⟨-, hm⟩ := h
        subst hm
        positivity
      · exact absurd h (by simp)

theorem parseSignedDec_sign (s sg : String) (m : ℚ)
    (h : parseSignedDec s = some (sg, m)) : sg = "" ∨ sg = "+" ∨ sg = "-" := by
  simp only [parseSignedDec] at h
  split at h
  · exact absurd h (by simp)
  · split at h
    · split at h
      · exact absurd h (by simp)
      · split at h
        · simp only [Option.some.injEq, Prod.mk.injEq] at h
          obtain ⟨hs, -⟩ := h
          exact hs ▸ splitSign_fst _
        · exact absurd h (by simp)
    · split at h
      · simp only [Option.some.injEq, Prod.mk.injEq] at h
        obtain ⟨hs, -⟩ := h
        exact hs ▸ splitSign_fst _
      · exact absurd h (by simp)

/-! ## Claim theorems -/

/-- C4: whenever the mandatory reading fetch raises, the run overwrites the
same output location (`index.html`, the one the success path writes) with a
diagnostic page that contains the failure reason and the attempted source URL,
and the process exit status is still success (`0`). -/
theorem C4_fallback_on_fetch_failure (url msg : String) :
    (runBuild url (Except.error msg)).exitCode = 0
    ∧ (runBuild url (Except.error msg)).path = "index.html"
    ∧ (∀ page, (runBuild url (Except.ok page)).path = (runBuild url (Except.error msg)).path
        ∧ (runBuild url (Except.ok page)).exitCode = 0)
    ∧ ∃ pre mid post,
        (runBuild url (Except.error msg)).file = pre ++ msg ++ mid ++ url ++ post :=
  ⟨rfl, rfl, fun _ => ⟨rfl, rfl⟩,
    "<!doctype html><meta charset=\"utf-8\"><pre>Build error: ", "\nSource: ", "\n</pre>", rfl⟩

/-- C7: `mapTrend` is a pure total lookup (a total Lean function into
`String`): numeric codes 1–5 and the seven named directions map to their fixed
symbols, any other string is returned verbatim, any other number gives `""`,
and an absent/null trend gives `""`. -/
theorem C7_mapTrend_total_lookup :
    mapTrend Trend.undef = ""
    ∧ (mapTrend (Trend.num 1) = "v" ∧ mapTrend (Trend.num 2) = "v>"
        ∧ mapTrend (Trend.num 3) = "--" ∧ mapTrend (Trend.num 4) = "^>"
        ∧ mapTrend (Trend.num 5) = "^")
    ∧ (mapTrend (Trend.str "DoubleDown") = "vv" ∧ mapTrend (Trend.str "SingleDown") = "v"
        ∧ mapTrend (Trend.str "FortyFiveDown") = "v>" ∧ mapTrend (Trend.str "Flat") = "--"
        ∧ mapTrend (Trend.str "FortyFiveUp") = "^>" ∧ mapTrend (Trend.str "SingleUp") = "^"
        ∧ mapTrend (Trend.str "DoubleUp") = "^^")
    ∧ (∀ s : String, tmap s = none → mapTrend (Trend.str s) = s)
    ∧ (∀ n : ℤ, tmap (jsIntString n) = none → mapTrend (Trend.num n) = "") := by
  refine ⟨rfl, ⟨by decide, by decide, by decide, by decide, by decide⟩,
    ⟨by decide, by decide, by decide, by decide, by decide, by decide, by decide⟩, ?_, ?_⟩
  · intro s h
    simp [mapTrend, h]
  · intro n h
    simp [mapTrend, h]

theorem C7_mapTrend_total_lookup_witness :
    mapTrend (Trend.str "Climbing") = "Climbing" ∧ mapTrend (Trend.num 9) = "" :=
  ⟨C7_mapTrend_total_lookup.2.2.2.1 "Climbing" (by decide),
   C7_mapTrend_total_lookup.2.2.2.2 9 (by decide)⟩

/-- C8: `computeAge` gives `"?"` when the timestamp does not convert to a
finite number; otherwise it renders `"<n>m ago"` where `n` is a natural
number (hence never negative) equal to the elapsed interval in whole minutes
clamped below at zero — even when the timestamp lies in the future. -/
theorem C8_computeAge_spec (tsRaw : JSVal) (nowMillis : ℚ) :
    (toNumber tsRaw = none → computeAge tsRaw nowMillis = "?")
    ∧ (∀ ts, toNumber tsRaw = some ts →
        ∃ n : ℕ, computeAge tsRaw nowMillis = jsIntString (n : ℤ) ++ "m ago"
          ∧ (n : ℤ) = max 0 (jsRound ((nowMillis - ts) / 60000))) := by
  constructor
  · intro h
    simp [computeAge, h]
  · intro ts h
    refine ⟨(max 0 (jsRound ((nowMillis - ts) / 60000))).toNat, ?_, ?_⟩
    · simp only [computeAge, h]
      rw [Int.toNat_of_nonneg (le_max_left 0 _)]
    · exact Int.toNat_of_nonneg (le_max_left 0 _)

theorem C8_computeAge_spec_witness :
    computeAge (JSVal.str "zzz") 0 = "?"
    ∧ ∃ n : ℕ, computeAge (JSVal.num 0) 120000 = jsIntString (n : ℤ) ++ "m ago"
        ∧ (n : ℤ) = max 0 (jsRound ((120000 - 0) / 60000)) :=
  ⟨(C8_computeAge_spec (JSVal.str "zzz") 0).1 (by decide),
   (C8_computeAge_spec (JSVal.num 0) 120000).2 0 (by decide)⟩

/-- C10: a non-empty, non-absent delta whose string form does not match the
signed-decimal regex is returned verbatim by `formatDelta` — no sign prefix,
no unit conversion, and (being a total Lean function) no error. -/
theorem C10_formatDelta_unparseable_verbatim (s u : String)
    (hne : s ≠ "") (h : parseSignedDec s = none) :
    formatDelta (JSVal.str s) u = s := by
  simp [formatDelta, hne, jsStringOf, h]

theorem C10_formatDelta_unparseable_verbatim_witness :
    formatDelta (JSVal.str "low") "mg/dL" = "low" :=
  C10_formatDelta_unparseable_verbatim "low" "mg/dL" (by decide) (by decide)

/-- C2: `formatBG` (the repository's trust-the-resolved-unit `formatValue`)
echoes `"?"` for an absent value and the raw string form for a present
non-finite one; every finite value is converted by the resolved unit alone —
for mmol/L it is divided by the fixed `MGDL_PER_MMOLL = 18.0182` and shown
with exactly one fractional digit, for mg/dL it is rounded to the nearest
integer and shown with no decimal point — with no magnitude-based re-guessing
(the conversion equations hold for every finite `n`, unconditionally). -/
theorem C2_formatBG_spec (v : JSVal) (units : String) :
    formatBG JSVal.undef units = "?"
    ∧ (∀ s, jsNumber v = none → v = JSVal.str s → formatBG v units = s)
    ∧ (∀ n, jsNumber v = some n →
        formatBG v "mmol/L" = jsToFixed1 (n / MGDL_PER_MMOLL)
        ∧ hasOneFracDigit (formatBG v "mmol/L")
        ∧ formatBG v "mg/dL" = jsIntString (jsRound n)
        ∧ '.' ∉ (formatBG v "mg/dL").data) := by
  refine ⟨rfl, ?_, ?_⟩
  · intro s hn hv
    subst hv
    simp [formatBG, hn, jsStringOf]
  · intro n hn
    refine ⟨by simp [formatBG, hn], ?_, by simp [formatBG, hn], ?_⟩
    · simp only [formatBG, hn]
      exact jsToFixed1_oneFracDigit _
    · simp only [formatBG, hn]
      exact jsIntString_no_dot _

unseal Rat.add Rat.mul Rat.inv Rat.sub Nat.gcd in
theorem C2_formatBG_spec_witness :
    formatBG (JSVal.str "120") "mmol/L" = jsToFixed1 (120 / MGDL_PER_MMOLL)
    ∧ formatBG (JSVal.str "120") "mmol/L" = "6.7"
    ∧ formatBG (JSVal.str "120") "mg/dL" = "120"
    ∧ formatBG (JSVal.str "abc") "mmol/L" = "abc" :=
  ⟨((C2_formatBG_spec (JSVal.str "120") "mmol/L").2.2 120 (by decide)).1,
   by decide, by decide,
   (C2_formatBG_spec (JSVal.str "abc") "mmol/L").2.1 "abc" (by decide) rfl⟩

/-- C9 counterexample: for the absent value — an input the claim explicitly
includes — `formatBG` under mmol/L returns `"?"`, which has no decimal point
at all, hence not exactly one digit after a decimal point. -/
theorem C9_formatBG_nonfinite_counterexample :
    formatBG JSVal.undef "mmol/L" = "?" ∧ ¬ hasOneFracDigit "?" := by
  refine ⟨rfl, ?_⟩
  rintro ⟨a, d, h, -, -⟩
  have hlen : ("?".data).length = (a ++ ['.', d]).length := by rw [h]
  simp at hlen

/-- C9 as amended: for every input that converts to a finite number,
`formatBG` under mmol/L yields a string with exactly one digit after the
decimal point (non-finite inputs are echoed as-is, e.g. `"?"`). -/
theorem C9_formatBG_mmol_oneFracDigit (v : JSVal) (n : ℚ) (h : jsNumber v = some n) :
    hasOneFracDigit (formatBG v "mmol/L") := by
  simp only [formatBG, h]
  exact jsToFixed1_oneFracDigit _

unseal Rat.add Rat.mul Rat.inv Rat.sub Nat.gcd in
theorem C9_formatBG_mmol_oneFracDigit_witness :
    hasOneFracDigit (formatBG (JSVal.str "6.5") "mmol/L") :=
  C9_formatBG_mmol_oneFracDigit (JSVal.str "6.5") (13 / 2) (by decide)

/-- C3 counterexample: `"low"` is a non-empty raw delta, yet `formatDelta`
returns it verbatim, beginning with neither `"+"` nor `"-"` — refuting the
claim's "for every other raw delta … always begins with + or -". -/
theorem C3_formatDelta_sign_counterexample :
    formatDelta (JSVal.str "low") "mg/dL" = "low"
    ∧ "low".data.head? ≠ some '+' ∧ "low".data.head? ≠ some '-' :=
  ⟨by decide, by decide, by decide⟩

/-- C3 as amended: empty/absent deltas give `""`; a delta whose string form
matches the signed-decimal regex is rendered as an explicit `"+"`/`"-"` prefix
(the input's sign, or `"+"` when none is present — the matched magnitude is
never negative, so zero is signed `"+"`) followed by the very conversion
`formatBG` applies under the same unit (divide by `MGDL_PER_MMOLL` and one
fractional digit for mmol/L; round to integer for mg/dL); a non-empty delta
whose string form does not match the regex is returned verbatim, without a
sign prefix. -/
theorem C3_formatDelta_spec (v : JSVal) (u : String) :
    formatDelta JSVal.undef u = ""
    ∧ formatDelta (JSVal.str "") u = ""
    ∧ (∀ sign mag, v ≠ JSVal.undef → v ≠ JSVal.str "" →
        parseSignedDec (jsStringOf v) = some (sign, mag) →
        ∃ pre, (pre = "+" ∨ pre = "-")
          ∧ (sign ≠ "" → pre = sign) ∧ (sign = "" → pre = "+")
          ∧ formatDelta v u =
              pre ++ (if u = "mmol/L" then jsToFixed1 (mag / MGDL_PER_MMOLL)
                      else jsIntString (jsRound mag)))
    ∧ (∀ s, s ≠ "" → parseSignedDec s = none → formatDelta (JSVal.str s) u = s) := by
  refine ⟨by simp [formatDelta], by simp [formatDelta], ?_, ?_⟩
  · intro sign mag h1 h2 h3
    have hnn : (0 : ℚ) ≤ mag := parseSignedDec_nonneg _ _ _ h3
    refine ⟨if sign = "" then "+" else sign, ?_, ?_, ?_, ?_⟩
    · by_cases hs : sign = ""
      · simp [hs]
      · rcases parseSignedDec_sign _ _ _ h3 with h | h | h
        · exact absurd h hs
        · simp [hs, h]
        · simp [hs, h]
    · intro hs
      simp [hs]
    · intro hs
      simp [hs]
    · have hguard : ¬(v = JSVal.undef ∨ v = JSVal.str "") := by
        rintro (h | h) <;> [exact h1 h; exact h2 h]
      simp only [formatDelta, if_neg hguard, h3]
      by_cases hu : u = "mmol/L" <;> by_cases hs : sign = "" <;>
        simp [hu, hs, hnn]
  · intro s hs hp
    simp [formatDelta, hs, jsStringOf, hp]

unseal Rat.add Rat.mul Rat.inv Rat.sub Nat.gcd in
theorem C3_formatDelta_spec_witness :
    (∃ pre, (pre = "+" ∨ pre = "-")
      ∧ ("" ≠ "" → pre = "") ∧ ("" = "" → pre = "+")
      ∧ formatDelta (JSVal.str "5") "mg/dL" =
          pre ++ (if "mg/dL" = "mmol/L" then jsToFixed1 (5 / MGDL_PER_MMOLL)
                  else jsIntString (jsRound 5)))
    ∧ formatDelta (JSVal.str "5") "mg/dL" = "+5" :=
  ⟨(C3_formatDelta_spec (JSVal.str "5") "mg/dL").2.2.1 "" 5
      (by decide) (by decide) (by decide),
   by decide⟩

/-- `knownZone` oracle recognising no timezone at all. -/
def noZones : String → Bool := fun _ => false

/-- `knownZone` oracle recognising exactly the identifier "Real/Zone". -/
def onlyRealZone : String → Bool := fun z => z = "Real/Zone"

/-- C5 counterexample: `" "` is a non-empty override string, yet
`resolveTimezone` does not return it — the override is trimmed first, the
whitespace-only override is treated as absent, and the chain falls through
(here to `"UTC"`). -/
theorem C5_resolveTimezone_override_counterexample :
    " " ≠ "" ∧ resolveTimezone (some " ") none "Local/Zone" noZones = "UTC"
    ∧ "UTC" ≠ " " :=
  ⟨by decide, by decide, by decide⟩

/-- C5 as amended: whenever the override TRIMS to a non-empty string,
`resolveTimezone` returns the trimmed override verbatim — for every status
snapshot, local timezone and timezone database alike (so neither is
consulted), including when the override is not a recognised identifier. -/
theorem C5_resolveTimezone_override_verbatim (o : String) (st : Option StatusSnap)
    (localTZ : String) (knownZone : String → Bool) (h : jsTrim o ≠ "") :
    resolveTimezone (some o) st localTZ knownZone = jsTrim o := by
  simp [resolveTimezone, overrideTz, h]

theorem C5_resolveTimezone_override_verbatim_witness :
    resolveTimezone (some "Not/AZone") (some ⟨none, none, none, some "America/Chicago"⟩)
      "Europe/Berlin" noZones = jsTrim "Not/AZone" :=
  C5_resolveTimezone_override_verbatim "Not/AZone"
    (some ⟨none, none, none, some "America/Chicago"⟩) "Europe/Berlin" noZones (by decide)

/-- C6 counterexample: with no override, a status timezone that the database
does not recognise is still returned — the chain does NOT proceed to the
(recognised) local timezone, refuting "an unrecognized candidate at any
priority level is treated as absent". -/
theorem C6_resolveTimezone_chain_counterexample :
    resolveTimezone none (some ⟨none, none, none, some "Bogus/Zone"⟩) "Real/Zone"
      onlyRealZone = "Bogus/Zone"
    ∧ onlyRealZone "Bogus/Zone" = false ∧ "Bogus/Zone" ≠ "Real/Zone" :=
  ⟨by decide, by decide, by decide⟩

/-- C6 as amended: `resolveTimezone` (a total Lean function, so it cannot
raise) never returns the empty string; the recognised-identifier gate applies
only to the local-system candidate: when the override and the status timezone
both trim to empty, the result is the local timezone if recognised and the
literal `"UTC"` otherwise (in particular, absent everything unrecognised, it
is `"UTC"`). -/
theorem C6_resolveTimezone_total_fallback (rawTz : Option String) (st : Option StatusSnap)
    (localTZ : String) (knownZone : String → Bool) :
    resolveTimezone rawTz st localTZ knownZone ≠ ""
    ∧ (overrideTz rawTz = "" → statusTz st = "" →
        knownZone (localOrUTC localTZ) = false →
        resolveTimezone rawTz st localTZ knownZone = "UTC")
    ∧ (overrideTz rawTz = "" → statusTz st = "" →
        knownZone (localOrUTC localTZ) = true →
        resolveTimezone rawTz st localTZ knownZone = localOrUTC localTZ) := by
  refine ⟨?_, ?_, ?_⟩
  · by_cases h1 : overrideTz rawTz = ""
    · by_cases h2 : statusTz st = ""
      · by_cases h3 : knownZone (localOrUTC localTZ) = true
        · have he : resolveTimezone rawTz st localTZ knownZone = localOrUTC localTZ := by
            simp [resolveTimezone, h1, h2, h3]
          rw [he]
          unfold localOrUTC
          split
          · simp
          · assumption
        · simp [resolveTimezone, h1, h2, h3]
      · simp [resolveTimezone, h1, h2]
    · simp [resolveTimezone, h1]
  · intro h1 h2 h3
    simp [resolveTimezone, h1, h2, h3]
  · intro h1 h2 h3
    simp [resolveTimezone, h1, h2, h3]

theorem C6_resolveTimezone_total_fallback_witness :
    resolveTimezone none none "Bogus/Zone" noZones = "UTC"
    ∧ resolveTimezone none none "Real/Zone" onlyRealZone = localOrUTC "Real/Zone" :=
  ⟨(C6_resolveTimezone_total_fallback none none "Bogus/Zone" noZones).2.1 rfl rfl rfl,
   (C6_resolveTimezone_total_fallback none none "Real/Zone" onlyRealZone).2.2
      rfl rfl (by decide)⟩

unseal Rat.add Rat.mul Rat.inv Rat.sub Nat.gcd in
/-- C1 counterexample: a present status snapshot declaring the (empty) unit
string `""` — which does not contain "mmol", so the claim demands MG_DL — is
treated as truthy-false by the code, which falls through to numeric inference
and returns mmol/L for the reading `6.5`. -/
theorem C1_deriveUnits_empty_unit_counterexample :
    rawUnits (some ⟨some "", none, none, none⟩) = some ""
    ∧ deriveUnits false none (some ⟨some "", none, none, none⟩) (JSVal.str "6.5") = "mmol/L"
    ∧ "mmol/L" ≠ "mg/dL" :=
  ⟨rfl, by decide, by decide⟩

/-- C1 as amended: `deriveUnits` is total and always returns exactly one of
mg/dL and mmol/L, by the claimed priority chain — force-flag, then the
"mmol"/"mgdl" override, then a declared status unit string (an EMPTY declared
string is treated as absent and falls through), then inference from the raw
value: a finite parsed value in (0, 40] gives mmol/L and every other case
(other finite values, and unparseable/non-finite ones) gives mg/dL. -/
theorem C1_deriveUnits_spec (fm : Bool) (ns : Option String) (st : Option StatusSnap)
    (sgv : JSVal) :
    (deriveUnits fm ns st sgv = "mg/dL" ∨ deriveUnits fm ns st sgv = "mmol/L")
    ∧ (fm = true → deriveUnits fm ns st sgv = "mmol/L")
    ∧ (fm = false → ns = some "mmol" → deriveUnits fm ns st sgv = "mmol/L")
    ∧ (fm = false → ns = some "mgdl" → deriveUnits fm ns st sgv = "mg/dL")
    ∧ (∀ v, fm = false → ns ≠ some "mmol" → ns ≠ some "mgdl" →
        rawUnits st = some v → v ≠ "" →
        deriveUnits fm ns st sgv =
          (if strContains (lowerStr v) "mmol" then "mmol/L" else "mg/dL"))
    ∧ (fm = false → ns ≠ some "mmol" → ns ≠ some "mgdl" →
        (rawUnits st = none ∨ rawUnits st = some "") →
        deriveUnits fm ns st sgv =
          (if looksLikeMmol (toNumber sgv) then "mmol/L" else "mg/dL"))
    ∧ (∀ q, looksLikeMmol (some q) = (decide (0 < q) && decide (q ≤ 40)))
    ∧ looksLikeMmol none = false := by
  refine ⟨?_, ?_, ?_, ?_, ?_, ?_, fun q => rfl, rfl⟩
  · unfold deriveUnits
    split
    · right; rfl
    · split
      · right; rfl
      · split
        · left; rfl
        · split
          · split
            · split
              · right; rfl
              · left; rfl
            · split
              · right; rfl
              · left; rfl
          · split
            · right; rfl
            · left; rfl
  · intro h; simp [deriveUnits, h]
  · intro h1 h2; simp [deriveUnits, h1, h2]
  · intro h1 h2; simp [deriveUnits, h1, h2]
  · intro v h1 h2 h3 h4 h5
    simp [deriveUnits, h1, h2, h3, h4, h5]
  · intro h1 h2 h3 h4
    rcases h4 with h4 | h4 <;> simp [deriveUnits, h1, h2, h3, h4]

unseal Rat.add Rat.mul Rat.inv Rat.sub Nat.gcd in
theorem C1_deriveUnits_spec_witness :
    deriveUnits true none none JSVal.undef = "mmol/L"
    ∧ deriveUnits false (some "mgdl") none JSVal.undef = "mg/dL"
    ∧ deriveUnits false none (some ⟨some "Mmol/L", none, none, none⟩) JSVal.undef
        = (if strContains (lowerStr "Mmol/L") "mmol" then "mmol/L" else "mg/dL")
    ∧ deriveUnits false none none (JSVal.str "120")
        = (if looksLikeMmol (toNumber (JSVal.str "120")) then "mmol/L" else "mg/dL") :=
  ⟨(C1_deriveUnits_spec true none none JSVal.undef).2.1 rfl,
   (C1_deriveUnits_spec false (some "mgdl") none JSVal.undef).2.2.2.1 rfl rfl,
   (C1_deriveUnits_spec false none (some ⟨some "Mmol/L", none, none, none⟩)
      JSVal.undef).2.2.2.2.1 "Mmol/L" rfl (by decide) (by decide) rfl (by decide),
   (C1_deriveUnits_spec false none none (JSVal.str "120")).2.2.2.2.2.1
      rfl (by decide) (by decide) (Or.inl rfl)⟩
